import Mathlib

/-!
# PCF8591 driver (`I2C_PCF8591.c`): shallow embedding

The C translation unit keeps its whole state in file-level statics
(`raw_data`, `converted_data`, `tx_data`, `ref_voltage`, `result`) and talks to
the bus through three HAL calls.  Here the statics become the fields of
`Session`, every public function becomes a pure function
`Session → … → Outcome`, and the HAL calls become

* an explicit *answer* argument (what the HAL call reported), and
* an entry in the returned `calls` list (what the driver asked the bus to do).

Conventions
* `uint8_t` values are natural numbers; every store into a `uint8_t` object that
  can leave the range is followed by `% 256`.
* `int` bit patterns (the result of `~MASK`) are 32-bit two's complement.
* `float` values are exact rationals (`ℚ`); rounding of the binary format is
  not modelled.
* A returned pointer is modelled by the offset it has inside the static array
  it points into; `none` is `NULL`.
-/

namespace PCF8591

/-! ## Constants and macros (lines 16–23, 31–33) -/

/-- Status codes of the HAL (`HAL_StatusTypeDef` of `stm32f1xx_hal_def.h`). -/
inductive HAL_StatusTypeDef where
  | HAL_OK
  | HAL_ERROR
  | HAL_BUSY
  | HAL_TIMEOUT
  deriving DecidableEq, Repr

open HAL_StatusTypeDef

def TX_INPUT_MODE_MASK : Nat := 0x70
def TX_CHANNEL_MASK : Nat := 0x07
def TX_AUTO_INCREMENT_FLAG : Nat := 0x04
def TX_CHANNEL_NUMBER_MASK : Nat := 0x30
def ADC_PCF_RESOLUTION : Nat := 255

def PCF8591_address : Nat := 0x48
def size_1 : Nat := 1

/-- Bitwise complement of a non-negative `int` constant, as a 32-bit pattern (`~m`). -/
def cNot (m : Nat) : Nat := 0xFFFFFFFF - m % 0x100000000

/-- Storing an integer value into a `uint8_t` object. -/
def toU8 (n : Nat) : Nat := n % 256

/-- The macro `ADC_CONVERT(voltage_value, ref_voltage)`. -/
def ADC_CONVERT (voltage_value ref_voltage : ℚ) : ℚ :=
  (voltage_value / ref_voltage) * (ADC_PCF_RESOLUTION : ℚ)

/-- The macro `DAC_CONVERT(adc_value, ref_voltage)`. -/
def DAC_CONVERT (adc_value : Nat) (ref_voltage : ℚ) : ℚ :=
  ((adc_value : ℚ) / (ADC_PCF_RESOLUTION : ℚ)) * ref_voltage

/-- Truncation toward zero of a rational. -/
def truncToInt (q : ℚ) : Int := if 0 ≤ q then ⌊q⌋ else ⌈q⌉

/-- The cast `(uint8_t) x` of a `float`: the fractional part is dropped.  C leaves the
result undefined when the integral part is outside `0..255`; here it is reduced
modulo 256, and no statement below evaluates it outside the open interval
`(-1, 256)`, where the cast is defined. -/
def castU8 (q : ℚ) : Nat := (truncToInt q % 256).toNat

/-! ## State and bus -/

/-- The file-level statics of `I2C_PCF8591.c` (lines 29–35). -/
structure Session where
  raw_data : Fin 4 → Nat
  converted_data : Fin 4 → ℚ
  tx_data0 : Nat
  tx_data1 : Nat
  ref_voltage : ℚ
  result : HAL_StatusTypeDef

/-- The statics as initialised by the C runtime. -/
def Session.initial : Session where
  raw_data := fun _ => 0
  converted_data := fun _ => 0
  tx_data0 := 0x00
  tx_data1 := 0x00
  ref_voltage := 33 / 10
  result := HAL_ERROR

/-- The requests the driver sends to the HAL. -/
inductive BusCall where
  | isDeviceReady (devAddress trials : Nat)
  | transmit (devAddress : Nat) (data : List Nat)
  | receive (devAddress size : Nat)
  deriving DecidableEq, Repr

/-- What a public function leaves behind: its return value, the statics, and the
HAL calls it made, in order. -/
structure Outcome (α : Type) where
  ret : α
  state : Session
  calls : List BusCall

/-- The first `size` bytes of `tx_data`, as handed to `HAL_I2C_Master_Transmit`. -/
def txBytes (s : Session) (size : Nat) : List Nat :=
  [s.tx_data0, s.tx_data1].take size

/-- Element `i` of a local receive buffer that was zero-initialised and then
filled by the HAL with `rx`. -/
def rxAt (rx : List Nat) (i : Nat) : Nat := rx.getD i 0x00

/-! ## Public functions -/

/-- The function `I2C_PCF8591_init` (lines 38–60).  `ready` and `tx` are the statuses reported by
`HAL_I2C_IsDeviceReady` and `HAL_I2C_Master_Transmit`. -/
def I2C_PCF8591_init (s : Session) (enableAnalogOutput inputMode : Nat)
    (reference_voltage : ℚ) (ready tx : HAL_StatusTypeDef) :
    Outcome HAL_StatusTypeDef :=
  let s := { s with result := HAL_ERROR }
  let s := { s with ref_voltage := reference_voltage }
  let c1 := BusCall.isDeviceReady (PCF8591_address <<< 1) 1
  let s := { s with result := ready }
  if s.result ≠ HAL_OK then
    ⟨s.result, s, [c1]⟩
  else
    let inputMode := toU8 ((inputMode &&& 0x03) <<< 4)
    let enableAnalogOutput := toU8 ((enableAnalogOutput &&& 0x01) <<< 6)
    let tx0 := toU8 ((s.tx_data0 &&& cNot TX_INPUT_MODE_MASK) ||| inputMode ||| enableAnalogOutput)
    let s := { s with tx_data0 := tx0 }
    let c2 := BusCall.transmit (PCF8591_address <<< 1) (txBytes s size_1)
    let s := { s with result := tx }
    ⟨s.result, s, [c1, c2]⟩

/-- The function `I2C_PCF8591_write_raw` (lines 63–70). -/
def I2C_PCF8591_write_raw (s : Session) (setValue : Nat) (tx : HAL_StatusTypeDef) :
    Outcome HAL_StatusTypeDef :=
  let s := { s with tx_data0 := toU8 (s.tx_data0 ||| 0x40) }
  let s := { s with tx_data1 := setValue }
  let c1 := BusCall.transmit (PCF8591_address <<< 1) (txBytes s 2)
  let s := { s with result := tx }
  ⟨s.result, s, [c1]⟩

/-- The function `I2C_PCF8591_write` (lines 73–81). -/
def I2C_PCF8591_write (s : Session) (setValue : ℚ) (tx : HAL_StatusTypeDef) :
    Outcome HAL_StatusTypeDef :=
  let s := { s with tx_data0 := toU8 (s.tx_data0 ||| 0x40) }
  let setValue := if setValue > s.ref_voltage then s.ref_voltage else setValue
  let s := { s with tx_data1 := castU8 (ADC_CONVERT setValue s.ref_voltage) }
  let c1 := BusCall.transmit (PCF8591_address <<< 1) (txBytes s 2)
  let s := { s with result := tx }
  ⟨s.result, s, [c1]⟩

/-- The function `I2C_PCF8591_read_ch_raw` (lines 84–110).  `rx` is the status of
`HAL_I2C_Master_Receive` together with the bytes it wrote into `rx_data`.  The
result `some c` is the pointer `&raw_data[c]`. -/
def I2C_PCF8591_read_ch_raw (s : Session) (channel : Nat) (tx : HAL_StatusTypeDef)
    (rx : HAL_StatusTypeDef × List Nat) : Outcome (Option (Fin 4)) :=
  if h : channel > 3 then
    ⟨none, s, []⟩
  else
    let s := { s with tx_data0 := toU8 ((s.tx_data0 &&& cNot TX_CHANNEL_MASK) ||| channel) }
    let c1 := BusCall.transmit (PCF8591_address <<< 1) (txBytes s size_1)
    let s := { s with result := tx }
    if s.result ≠ HAL_OK then
      ⟨none, s, [c1]⟩
    else
      let c2 := BusCall.receive (PCF8591_address <<< 1) 2
      let s := { s with result := rx.1 }
      if s.result ≠ HAL_OK then
        ⟨none, s, [c1, c2]⟩
      else
        let ch : Fin 4 := ⟨channel, by omega⟩
        let s := { s with raw_data := Function.update s.raw_data ch (rxAt rx.2 1) }
        let v := DAC_CONVERT (s.raw_data ch) s.ref_voltage
        let s := { s with converted_data := Function.update s.converted_data ch v }
        ⟨some ch, s, [c1, c2]⟩

/-- One pass of the loop body of `I2C_PCF8591_read_raw` (lines 130–131). -/
def read_raw_body (rx : List Nat) (s : Session) (i : Fin 4) : Session :=
  let s := { s with raw_data := Function.update s.raw_data i (rxAt rx (i.val + 1)) }
  let v : ℚ := ((castU8 (DAC_CONVERT (s.raw_data i) s.ref_voltage) : Nat) : ℚ)
  { s with converted_data := Function.update s.converted_data i v }

/-- The function `I2C_PCF8591_read_raw` (lines 113–135).  The result `some 0` is the pointer
`raw_data`. -/
def I2C_PCF8591_read_raw (s : Session) (tx : HAL_StatusTypeDef)
    (rx : HAL_StatusTypeDef × List Nat) : Outcome (Option (Fin 4)) :=
  let s := { s with tx_data0 := toU8 (s.tx_data0 &&& cNot TX_AUTO_INCREMENT_FLAG) }
  let c1 := BusCall.transmit (PCF8591_address <<< 1) (txBytes s size_1)
  let s := { s with result := tx }
  if s.result ≠ HAL_OK then
    ⟨none, s, [c1]⟩
  else
    let c2 := BusCall.receive (PCF8591_address <<< 1) 5
    let s := { s with result := rx.1 }
    if s.result ≠ HAL_OK then
      ⟨none, s, [c1, c2]⟩
    else
      let s := (List.finRange 4).foldl (read_raw_body rx.2) s
      ⟨some 0, s, [c1, c2]⟩

/-- The function `I2C_PCF8591_read_ch` (lines 138–162).  The result `some c` is the pointer
`&converted_data[c]`. -/
def I2C_PCF8591_read_ch (s : Session) (channel : Nat) (tx : HAL_StatusTypeDef)
    (rx : HAL_StatusTypeDef × List Nat) : Outcome (Option (Fin 4)) :=
  if h : channel > 3 then
    ⟨none, s, []⟩
  else
    let s := { s with tx_data0 := toU8 ((s.tx_data0 &&& cNot TX_CHANNEL_MASK) ||| channel) }
    let c1 := BusCall.transmit (PCF8591_address <<< 1) (txBytes s size_1)
    let s := { s with result := tx }
    if s.result ≠ HAL_OK then
      ⟨none, s, [c1]⟩
    else
      let c2 := BusCall.receive (PCF8591_address <<< 1) 2
      let s := { s with result := rx.1 }
      if s.result ≠ HAL_OK then
        ⟨none, s, [c1, c2]⟩
      else
        let ch : Fin 4 := ⟨channel, by omega⟩
        let s := { s with raw_data := Function.update s.raw_data ch (rxAt rx.2 1) }
        let v := DAC_CONVERT (s.raw_data ch) s.ref_voltage
        let s := { s with converted_data := Function.update s.converted_data ch v }
        ⟨some ch, s, [c1, c2]⟩

/-- One pass of the loop body of `I2C_PCF8591_read` (lines 182–183). -/
def read_body (rx : List Nat) (s : Session) (i : Fin 4) : Session :=
  let s := { s with raw_data := Function.update s.raw_data i (rxAt rx (i.val + 1)) }
  let v : ℚ := DAC_CONVERT (s.raw_data i) s.ref_voltage
  { s with converted_data := Function.update s.converted_data i v }

/-- The function `I2C_PCF8591_read` (lines 165–187).  The result `some 0` is the pointer
`converted_data`. -/
def I2C_PCF8591_read (s : Session) (tx : HAL_StatusTypeDef)
    (rx : HAL_StatusTypeDef × List Nat) : Outcome (Option (Fin 4)) :=
  let s := { s with tx_data0 := toU8 (s.tx_data0 &&& cNot TX_AUTO_INCREMENT_FLAG) }
  let c1 := BusCall.transmit (PCF8591_address <<< 1) (txBytes s size_1)
  let s := { s with result := tx }
  if s.result ≠ HAL_OK then
    ⟨none, s, [c1]⟩
  else
    let c2 := BusCall.receive (PCF8591_address <<< 1) 5
    let s := { s with result := rx.1 }
    if s.result ≠ HAL_OK then
      ⟨none, s, [c1, c2]⟩
    else
      let s := (List.finRange 4).foldl (read_body rx.2) s
      ⟨some 0, s, [c1, c2]⟩

/-! ## Reading the statics back -/

/-- The four cached codes `raw_data[0..3]`, in channel order. -/
def Session.last_raw (s : Session) : List Nat :=
  [s.raw_data 0, s.raw_data 1, s.raw_data 2, s.raw_data 3]

/-- The four cached voltages `converted_data[0..3]`, in channel order. -/
def Session.last_converted (s : Session) : List ℚ :=
  [s.converted_data 0, s.converted_data 1, s.converted_data 2, s.converted_data 3]

/-- The control byte, `tx_data[0]`. -/
def Session.control_byte (s : Session) : Nat := s.tx_data0

/-- The codes seen through a pointer returned by `I2C_PCF8591_read_raw`: the four
bytes starting at `raw_data`, or nothing for `NULL`. -/
def codesAt (s : Session) (p : Option (Fin 4)) : Option (List Nat) :=
  p.map fun i => s.last_raw.drop i.val

/-- The code seen through a pointer returned by `I2C_PCF8591_read_ch_raw`. -/
def codeAt (s : Session) (p : Option (Fin 4)) : Option Nat :=
  p.map s.raw_data

/-- The voltage seen through a pointer returned by `I2C_PCF8591_read_ch`. -/
def voltageAt (s : Session) (p : Option (Fin 4)) : Option ℚ :=
  p.map s.converted_data

/-- The HAL calls of a list that are transmits. -/
def transmits (cs : List BusCall) : List BusCall :=
  cs.filter fun c => match c with
    | BusCall.transmit _ _ => true
    | _ => false

/-- The HAL calls of a list that are receives. -/
def receives (cs : List BusCall) : List BusCall :=
  cs.filter fun c => match c with
    | BusCall.receive _ _ => true
    | _ => false

/-! ## Predicates used in the statements -/

/-- The claim "the channel field is set and every other field is bit-identical"
for a control byte `before` turned into `after` by selecting `channel`:
channel field (bits 1..0), auto-increment (bit 2), input mode (bits 5..4),
DAC enable (bit 6), unused bits (3 and 7). -/
def ChannelSetOnly (before after channel : Nat) : Prop :=
  after &&& 0x03 = channel ∧
  after &&& 0x04 = before &&& 0x04 ∧
  after &&& 0x30 = before &&& 0x30 ∧
  after &&& 0x40 = before &&& 0x40 ∧
  after &&& 0x88 = before &&& 0x88

/-- What the code does when it selects `channel`: the channel field is set, the
auto-increment bit is cleared, the remaining fields are bit-identical. -/
def ChannelSetAutoIncCleared (before after channel : Nat) : Prop :=
  after &&& 0x03 = channel ∧
  after &&& 0x04 = 0 ∧
  after &&& 0x30 = before &&& 0x30 ∧
  after &&& 0x40 = before &&& 0x40 ∧
  after &&& 0x88 = before &&& 0x88

/-- An outcome is that of a failed read from state `s`: `NULL` is returned and
`raw_data`, `converted_data` are the ones of `s`. -/
def FailedRead (s : Session) (o : Outcome (Option (Fin 4))) : Prop :=
  o.ret = none ∧ o.state.raw_data = s.raw_data ∧ o.state.converted_data = s.converted_data

instance (before after channel : Nat) : Decidable (ChannelSetOnly before after channel) := by
  unfold ChannelSetOnly
  infer_instance

instance (before after channel : Nat) :
    Decidable (ChannelSetAutoIncCleared before after channel) := by
  unfold ChannelSetAutoIncCleared
  infer_instance

instance (s : Session) (o : Outcome (Option (Fin 4))) : Decidable (FailedRead s o) := by
  unfold FailedRead
  infer_instance

/-! ## The voltage write path, step by step -/

/-- The value of `setValue` after line 75 of `I2C_PCF8591_write`. -/
def write_clamped (s : Session) (setValue : ℚ) : ℚ :=
  if setValue > s.ref_voltage then s.ref_voltage else setValue

/-- The clamp of section 4.4 of the specification, `clamp(voltage, 0, ref_v)`. -/
def spec_clamp (voltage ref_v : ℚ) : ℚ := max 0 (min voltage ref_v)

/-- The conversion of section 4.2 of the specification,
`voltage_to_code(voltage, ref_v) = round((clamp(voltage, 0, ref_v) / ref_v) * 255)`,
with halves rounded up. -/
def spec_voltage_to_code (voltage ref_v : ℚ) : Int :=
  round ((spec_clamp voltage ref_v / ref_v) * 255)

/-! ## Sequences of calls -/

/-- One call of the public surface: the function, its arguments, and what the HAL
answers while it runs. -/
inductive Op where
  | init (enableAnalogOutput inputMode : Nat) (reference_voltage : ℚ)
      (ready tx : HAL_StatusTypeDef)
  | write_raw (setValue : Nat) (tx : HAL_StatusTypeDef)
  | write (setValue : ℚ) (tx : HAL_StatusTypeDef)
  | read_ch_raw (channel : Nat) (tx : HAL_StatusTypeDef) (rx : HAL_StatusTypeDef × List Nat)
  | read_raw (tx : HAL_StatusTypeDef) (rx : HAL_StatusTypeDef × List Nat)
  | read_ch (channel : Nat) (tx : HAL_StatusTypeDef) (rx : HAL_StatusTypeDef × List Nat)
  | read (tx : HAL_StatusTypeDef) (rx : HAL_StatusTypeDef × List Nat)

/-- The statics after one call and the HAL calls it made. -/
def Op.run (s : Session) : Op → Session × List BusCall
  | Op.init e m r ready tx =>
      ((I2C_PCF8591_init s e m r ready tx).state, (I2C_PCF8591_init s e m r ready tx).calls)
  | Op.write_raw v tx =>
      ((I2C_PCF8591_write_raw s v tx).state, (I2C_PCF8591_write_raw s v tx).calls)
  | Op.write v tx =>
      ((I2C_PCF8591_write s v tx).state, (I2C_PCF8591_write s v tx).calls)
  | Op.read_ch_raw c tx rx =>
      ((I2C_PCF8591_read_ch_raw s c tx rx).state, (I2C_PCF8591_read_ch_raw s c tx rx).calls)
  | Op.read_raw tx rx =>
      ((I2C_PCF8591_read_raw s tx rx).state, (I2C_PCF8591_read_raw s tx rx).calls)
  | Op.read_ch c tx rx =>
      ((I2C_PCF8591_read_ch s c tx rx).state, (I2C_PCF8591_read_ch s c tx rx).calls)
  | Op.read tx rx =>
      ((I2C_PCF8591_read s tx rx).state, (I2C_PCF8591_read s tx rx).calls)

/-- The statics after a sequence of calls and all the HAL calls made, in order. -/
def runAll (s : Session) : List Op → Session × List BusCall
  | [] => (s, [])
  | op :: ops => ((runAll (op.run s).1 ops).1, (op.run s).2 ++ (runAll (op.run s).1 ops).2)

/-- The command byte of a HAL call: the first byte of a transmit. -/
def commandByte : BusCall → Option Nat
  | BusCall.transmit _ d => d.head?
  | _ => none

/-- The command bytes of the transmits of a list of HAL calls, in order. -/
def commandBytes (cs : List BusCall) : List Nat := cs.filterMap commandByte

/-- The command byte of the most recent transmit, if there was one. -/
def lastCommandByte (cs : List BusCall) : Option Nat := (commandBytes cs).getLast?

/-- A control byte is an 8-bit value whose unused bits 7 and 3 and whose
auto-increment bit 2 are clear. -/
def ReservedBitsClear (b : Nat) : Prop := b < 256 ∧ b &&& 0x8C = 0

instance (b : Nat) : Decidable (ReservedBitsClear b) := by
  unfold ReservedBitsClear
  infer_instance

/-! ## Auxiliary lemmas -/

theorem foldl_finRange4 {α : Type} (f : α → Fin 4 → α) (a : α) :
    (List.finRange 4).foldl f a = f (f (f (f a 0) 1) 2) 3 := by
  rfl

theorem fin4_val_three : ((3 : Fin 4) : Nat) = 3 := rfl

set_option maxRecDepth 100000 in
theorem channel_store_bits : ∀ p < 256, ∀ c < 4,
    toU8 ((p &&& cNot TX_CHANNEL_MASK) ||| c) = (p &&& 0xF8) ||| c ∧
    ChannelSetAutoIncCleared p (toU8 ((p &&& cNot TX_CHANNEL_MASK) ||| c)) c := by
  unfold ChannelSetAutoIncCleared
  decide

/-- The control byte after either single-channel read, whatever the bus answers. -/
theorem read_ch_control_byte (s : Session) (channel : Nat) (h : channel ≤ 3)
    (tx : HAL_StatusTypeDef) (rx : HAL_StatusTypeDef × List Nat) :
    (I2C_PCF8591_read_ch_raw s channel tx rx).state.tx_data0
        = toU8 ((s.tx_data0 &&& cNot TX_CHANNEL_MASK) ||| channel) ∧
    (I2C_PCF8591_read_ch s channel tx rx).state.tx_data0
        = toU8 ((s.tx_data0 &&& cNot TX_CHANNEL_MASK) ||| channel) := by
  have hc : ¬ channel > 3 := by omega
  constructor
  · simp only [I2C_PCF8591_read_ch_raw, dif_neg hc]
    split_ifs <;> rfl
  · simp only [I2C_PCF8591_read_ch, dif_neg hc]
    split_ifs <;> rfl

/-! ## Theorems -/

/-- C1: when the transmit and the receive both succeed and the receive delivers
`[b0, b1, b2, b3, b4]`, `I2C_PCF8591_read_raw` returns a pointer through which the
four codes `[b1, b2, b3, b4]` are read, `raw_data[0..3]` holds exactly these, and
the outcome is the same for every value of the leading byte `b0`. -/
theorem read_raw_discards_leading_byte (s : Session) (b0 b1 b2 b3 b4 : Nat) :
    codesAt (I2C_PCF8591_read_raw s HAL_OK (HAL_OK, [b0, b1, b2, b3, b4])).state
        (I2C_PCF8591_read_raw s HAL_OK (HAL_OK, [b0, b1, b2, b3, b4])).ret
      = some [b1, b2, b3, b4] ∧
    (I2C_PCF8591_read_raw s HAL_OK (HAL_OK, [b0, b1, b2, b3, b4])).state.last_raw
      = [b1, b2, b3, b4] ∧
    ∀ c0 : Nat,
      I2C_PCF8591_read_raw s HAL_OK (HAL_OK, [c0, b1, b2, b3, b4])
        = I2C_PCF8591_read_raw s HAL_OK (HAL_OK, [b0, b1, b2, b3, b4]) := by
  refine ⟨?_, ?_, fun c0 => ?_⟩ <;>
    simp [I2C_PCF8591_read_raw, Session.last_raw, codesAt, foldl_finRange4, read_raw_body,
      rxAt, fin4_val_three]

/-- The example of the specification for C1: the receive `[0xFF, 0x10, 0x20, 0x30, 0x40]`
yields the codes `[0x10, 0x20, 0x30, 0x40]`. -/
theorem read_raw_example :
    (I2C_PCF8591_read_raw Session.initial HAL_OK
        (HAL_OK, [0xFF, 0x10, 0x20, 0x30, 0x40])).state.last_raw
      = [0x10, 0x20, 0x30, 0x40] :=
  (read_raw_discards_leading_byte Session.initial 0xFF 0x10 0x20 0x30 0x40).2.1

/-- The control byte after a single-channel read, from any 8-bit control byte and for
every channel in 0..3, whatever the bus answers: it is the old one with bits 2..0
replaced by the channel, so the channel field equals the channel, bit 2 is clear,
and the input-mode field, the DAC-enable bit and the unused bits 3 and 7 are
bit-identical to before the call; when bit 2 was clear before, every field other
than the channel is bit-identical. -/
theorem read_ch_sets_channel_clears_auto_increment (s : Session) (channel : Nat)
    (tx : HAL_StatusTypeDef) (rx : HAL_StatusTypeDef × List Nat)
    (hp : s.control_byte < 256) (hc : channel ≤ 3) :
    (I2C_PCF8591_read_ch_raw s channel tx rx).state.control_byte
      = (s.control_byte &&& 0xF8) ||| channel ∧
    (I2C_PCF8591_read_ch s channel tx rx).state.control_byte
      = (s.control_byte &&& 0xF8) ||| channel ∧
    ChannelSetAutoIncCleared s.control_byte
      (I2C_PCF8591_read_ch_raw s channel tx rx).state.control_byte channel ∧
    ChannelSetAutoIncCleared s.control_byte
      (I2C_PCF8591_read_ch s channel tx rx).state.control_byte channel ∧
    (s.control_byte &&& TX_AUTO_INCREMENT_FLAG = 0 →
      ChannelSetOnly s.control_byte
        (I2C_PCF8591_read_ch_raw s channel tx rx).state.control_byte channel ∧
      ChannelSetOnly s.control_byte
        (I2C_PCF8591_read_ch s channel tx rx).state.control_byte channel) := by
  have h := read_ch_control_byte s channel hc tx rx
  have hb := channel_store_bits s.tx_data0 hp channel (by omega)
  simp only [Session.control_byte, h.1, h.2]
  refine ⟨hb.1, hb.1, hb.2, hb.2, fun h0 => ?_⟩
  have hk : ChannelSetOnly s.tx_data0
      (toU8 ((s.tx_data0 &&& cNot TX_CHANNEL_MASK) ||| channel)) channel := by
    obtain ⟨h1, h2, h3, h4, h5⟩ := hb.2
    exact ⟨h1, h2.trans h0.symm, h3, h4, h5⟩
  exact ⟨hk, hk⟩

theorem read_ch_sets_channel_clears_auto_increment_witness :
    (I2C_PCF8591_read_ch_raw { Session.initial with tx_data0 := 0x54 } 2 HAL_OK
        (HAL_OK, [0, 7])).state.control_byte = 0x52 ∧
    (I2C_PCF8591_read_ch { Session.initial with tx_data0 := 0x54 } 2 HAL_OK
        (HAL_OK, [0, 7])).state.control_byte = 0x52 :=
  ⟨(read_ch_sets_channel_clears_auto_increment { Session.initial with tx_data0 := 0x54 } 2
      HAL_OK (HAL_OK, [0, 7]) (by decide) (by decide)).1,
   (read_ch_sets_channel_clears_auto_increment { Session.initial with tx_data0 := 0x54 } 2
      HAL_OK (HAL_OK, [0, 7]) (by decide) (by decide)).2.1⟩


/-- C3: for every channel value greater than 3 and every state, whatever the bus
would answer, `I2C_PCF8591_read_ch_raw` and `I2C_PCF8591_read_ch` return `NULL`,
make no HAL call at all, and leave every static (in particular the control byte,
`raw_data` and `converted_data`) unchanged. -/
theorem read_ch_invalid_channel_rejected (s : Session) (channel : Nat)
    (tx : HAL_StatusTypeDef) (rx : HAL_StatusTypeDef × List Nat) (h : channel > 3) :
    ((I2C_PCF8591_read_ch_raw s channel tx rx).ret = none ∧
      (I2C_PCF8591_read_ch_raw s channel tx rx).calls = [] ∧
      (I2C_PCF8591_read_ch_raw s channel tx rx).state = s) ∧
    ((I2C_PCF8591_read_ch s channel tx rx).ret = none ∧
      (I2C_PCF8591_read_ch s channel tx rx).calls = [] ∧
      (I2C_PCF8591_read_ch s channel tx rx).state = s) := by
  simp [I2C_PCF8591_read_ch_raw, I2C_PCF8591_read_ch, h]

theorem read_ch_invalid_channel_rejected_witness :
    ((I2C_PCF8591_read_ch_raw Session.initial 4 HAL_OK (HAL_OK, [0, 9])).ret = none ∧
      (I2C_PCF8591_read_ch_raw Session.initial 4 HAL_OK (HAL_OK, [0, 9])).calls = [] ∧
      (I2C_PCF8591_read_ch_raw Session.initial 4 HAL_OK (HAL_OK, [0, 9])).state
        = Session.initial) ∧
    ((I2C_PCF8591_read_ch Session.initial 4 HAL_OK (HAL_OK, [0, 9])).ret = none ∧
      (I2C_PCF8591_read_ch Session.initial 4 HAL_OK (HAL_OK, [0, 9])).calls = [] ∧
      (I2C_PCF8591_read_ch Session.initial 4 HAL_OK (HAL_OK, [0, 9])).state
        = Session.initial) :=
  read_ch_invalid_channel_rejected Session.initial 4 HAL_OK (HAL_OK, [0, 9]) (by decide)

/-- C4: for each of the four read functions and every state, if the transmit or the
receive fails then the function returns `NULL` and leaves `raw_data` and
`converted_data` unchanged on all four channels; and if it is the transmit that
fails, no receive call is issued. -/
theorem reads_keep_cache_on_failure (s : Session) (channel : Nat)
    (tx : HAL_StatusTypeDef) (rx : HAL_StatusTypeDef × List Nat)
    (hfail : tx ≠ HAL_OK ∨ rx.1 ≠ HAL_OK) :
    (FailedRead s (I2C_PCF8591_read_ch_raw s channel tx rx) ∧
      FailedRead s (I2C_PCF8591_read_ch s channel tx rx) ∧
      FailedRead s (I2C_PCF8591_read_raw s tx rx) ∧
      FailedRead s (I2C_PCF8591_read s tx rx)) ∧
    (tx ≠ HAL_OK →
      receives (I2C_PCF8591_read_ch_raw s channel tx rx).calls = [] ∧
      receives (I2C_PCF8591_read_ch s channel tx rx).calls = [] ∧
      receives (I2C_PCF8591_read_raw s tx rx).calls = [] ∧
      receives (I2C_PCF8591_read s tx rx).calls = []) := by
  refine ⟨?_, fun htx => ?_⟩
  · by_cases htx : tx = HAL_OK
    · have hrx : rx.1 ≠ HAL_OK := by
        rcases hfail with h | h
        · exact absurd htx h
        · exact h
      by_cases hc : channel > 3 <;>
        simp [FailedRead, I2C_PCF8591_read_ch_raw, I2C_PCF8591_read_ch, I2C_PCF8591_read_raw,
          I2C_PCF8591_read, htx, hrx, hc]
    · by_cases hc : channel > 3 <;>
        simp [FailedRead, I2C_PCF8591_read_ch_raw, I2C_PCF8591_read_ch, I2C_PCF8591_read_raw,
          I2C_PCF8591_read, htx, hc]
  · by_cases hc : channel > 3 <;>
      simp [receives, I2C_PCF8591_read_ch_raw, I2C_PCF8591_read_ch, I2C_PCF8591_read_raw,
        I2C_PCF8591_read, htx, hc]

theorem reads_keep_cache_on_failure_witness :
    (I2C_PCF8591_read_raw Session.initial HAL_OK (HAL_TIMEOUT, [0xFF, 0x10])).ret = none ∧
    (I2C_PCF8591_read_raw Session.initial HAL_OK (HAL_TIMEOUT, [0xFF, 0x10])).state.raw_data
      = Session.initial.raw_data ∧
    receives (I2C_PCF8591_read_ch Session.initial 1 HAL_BUSY (HAL_OK, [0, 9])).calls = [] :=
  ⟨(reads_keep_cache_on_failure Session.initial 1 HAL_OK (HAL_TIMEOUT, [0xFF, 0x10])
      (Or.inr (by decide))).1.2.2.1.1,
   (reads_keep_cache_on_failure Session.initial 1 HAL_OK (HAL_TIMEOUT, [0xFF, 0x10])
      (Or.inr (by decide))).1.2.2.1.2.1,
   ((reads_keep_cache_on_failure Session.initial 1 HAL_BUSY (HAL_OK, [0, 9])
      (Or.inl (by decide))).2 (by decide)).2.1⟩


/-- C5: for every channel `c` in 0..3 and every receive `[b0, b1]` with transmit and
receive both succeeding, `I2C_PCF8591_read_ch_raw` returns a pointer to the code
`b1` and `I2C_PCF8591_read_ch` a pointer to the voltage `(b1 / 255) * ref_voltage`;
after either call `raw_data[c] = b1`, `converted_data[c] = (b1 / 255) * ref_voltage`,
and the entries of every other channel are unchanged. -/
theorem read_ch_success (s : Session) (c : Fin 4) (b0 b1 : Nat) :
    codeAt (I2C_PCF8591_read_ch_raw s c.val HAL_OK (HAL_OK, [b0, b1])).state
        (I2C_PCF8591_read_ch_raw s c.val HAL_OK (HAL_OK, [b0, b1])).ret = some b1 ∧
    voltageAt (I2C_PCF8591_read_ch s c.val HAL_OK (HAL_OK, [b0, b1])).state
        (I2C_PCF8591_read_ch s c.val HAL_OK (HAL_OK, [b0, b1])).ret
      = some (((b1 : ℚ) / 255) * s.ref_voltage) ∧
    (∀ o ∈ [I2C_PCF8591_read_ch_raw s c.val HAL_OK (HAL_OK, [b0, b1]),
            I2C_PCF8591_read_ch s c.val HAL_OK (HAL_OK, [b0, b1])],
      o.state.raw_data c = b1 ∧
      o.state.converted_data c = ((b1 : ℚ) / 255) * s.ref_voltage ∧
      ∀ j : Fin 4, j ≠ c →
        o.state.raw_data j = s.raw_data j ∧
        o.state.converted_data j = s.converted_data j) := by
  have hc : ¬ c.val > 3 := by omega
  refine ⟨?_, ?_, ?_⟩
  · simp [codeAt, I2C_PCF8591_read_ch_raw, hc, rxAt]
  · simp [voltageAt, I2C_PCF8591_read_ch, hc, rxAt, DAC_CONVERT, ADC_PCF_RESOLUTION]
  · intro o ho
    simp only [List.mem_cons, List.mem_singleton, List.not_mem_nil, or_false] at ho
    rcases ho with rfl | rfl
    · refine ⟨?_, ?_, fun j hj => ?_⟩
      · simp [I2C_PCF8591_read_ch_raw, hc, rxAt]
      · simp [I2C_PCF8591_read_ch_raw, hc, rxAt, DAC_CONVERT, ADC_PCF_RESOLUTION]
      · simp [I2C_PCF8591_read_ch_raw, hc, Function.update_noteq hj]
    · refine ⟨?_, ?_, fun j hj => ?_⟩
      · simp [I2C_PCF8591_read_ch, hc, rxAt]
      · simp [I2C_PCF8591_read_ch, hc, rxAt, DAC_CONVERT, ADC_PCF_RESOLUTION]
      · simp [I2C_PCF8591_read_ch, hc, Function.update_noteq hj]

theorem read_ch_success_witness :
    voltageAt (I2C_PCF8591_read_ch Session.initial 2 HAL_OK (HAL_OK, [0x00, 0xFF])).state
        (I2C_PCF8591_read_ch Session.initial 2 HAL_OK (HAL_OK, [0x00, 0xFF])).ret
      = some (33 / 10) ∧
    (I2C_PCF8591_read_ch Session.initial 2 HAL_OK (HAL_OK, [0x00, 0xFF])).state.raw_data 2
      = 255 ∧
    (I2C_PCF8591_read_ch Session.initial 2 HAL_OK (HAL_OK, [0x00, 0xFF])).state.raw_data 3
      = 0 := by
  have h := read_ch_success Session.initial 2 0x00 0xFF
  refine ⟨?_, ?_, ?_⟩
  · rw [show ((2 : Fin 4) : Nat) = 2 from rfl] at h
    rw [h.2.1]
    norm_num [Session.initial]
  · exact (h.2.2 _ (List.mem_cons_of_mem _ (List.mem_singleton_self _))).1
  · exact ((h.2.2 _ (List.mem_cons_of_mem _ (List.mem_singleton_self _))).2.2 3
      (by decide)).1


/-- C6 fails on the code: with the reference voltage 3.3 and the receive
`[0xFF, 0x10, 0x20, 0x30, 0x40]`, `I2C_PCF8591_read_raw` caches the codes
`[16, 32, 48, 64]` but the voltages `[0, 0, 0, 0]`, because line 131 casts the
converted value to `uint8_t`; `DAC_CONVERT` of the cached codes, and the cache
`I2C_PCF8591_read` builds from the same bytes, is `[88/425, 176/425, 264/425, 352/425]`. -/
theorem read_raw_converted_truncated :
    (I2C_PCF8591_read_raw Session.initial HAL_OK
        (HAL_OK, [0xFF, 0x10, 0x20, 0x30, 0x40])).state.last_raw = [16, 32, 48, 64] ∧
    (I2C_PCF8591_read_raw Session.initial HAL_OK
        (HAL_OK, [0xFF, 0x10, 0x20, 0x30, 0x40])).state.last_converted = [0, 0, 0, 0] ∧
    [16, 32, 48, 64].map (fun code => DAC_CONVERT code Session.initial.ref_voltage)
      = [88 / 425, 176 / 425, 264 / 425, 352 / 425] ∧
    (I2C_PCF8591_read Session.initial HAL_OK
        (HAL_OK, [0xFF, 0x10, 0x20, 0x30, 0x40])).state.last_converted
      = [88 / 425, 176 / 425, 264 / 425, 352 / 425] := by
  refine ⟨?_, ?_, ?_, ?_⟩
  · simp [I2C_PCF8591_read_raw, Session.last_raw, foldl_finRange4, read_raw_body, rxAt,
      fin4_val_three]
  · simp [I2C_PCF8591_read_raw, Session.last_converted, foldl_finRange4, read_raw_body, rxAt,
      fin4_val_three, Session.initial, DAC_CONVERT, castU8, truncToInt, ADC_PCF_RESOLUTION]
    norm_num [Int.floor_eq_iff]
  · norm_num [DAC_CONVERT, Session.initial, ADC_PCF_RESOLUTION]
  · simp [I2C_PCF8591_read, Session.last_converted, foldl_finRange4, read_body, rxAt,
      fin4_val_three, Session.initial, DAC_CONVERT, ADC_PCF_RESOLUTION]
    norm_num


set_option maxRecDepth 100000 in
theorem init_store_bits : ∀ p < 256, ∀ k < 4, ∀ j < 2,
    toU8 ((p &&& cNot TX_INPUT_MODE_MASK) ||| toU8 (k <<< 4) ||| toU8 (j <<< 6))
      = (p &&& 0x8F) ||| (k <<< 4) ||| (j <<< 6) ∧
    ((p &&& 0x8F) ||| (k <<< 4) ||| (j <<< 6)) &&& 0x8F = p &&& 0x8F := by
  decide

set_option maxRecDepth 100000 in
theorem dac_enable_store_bits : ∀ p < 256,
    toU8 (p ||| 0x40) = p ||| 0x40 ∧ (p ||| 0x40) &&& 0xBF = p &&& 0xBF ∧
    (p ||| 0x40) &&& 0x40 = 0x40 := by
  decide

theorem and_three_lt (m : Nat) : m &&& 0x03 < 4 :=
  Nat.lt_succ_of_le Nat.and_le_right

theorem and_one_lt (e : Nat) : e &&& 0x01 < 2 :=
  Nat.lt_succ_of_le Nat.and_le_right

/-- C7: for every 8-bit prior control byte `p` and all arguments, when the device
reports ready, `I2C_PCF8591_init` sets the control byte to
`(p & 0x8F) | ((inputMode & 3) << 4) | ((enableAnalogOutput & 1) << 6)`, so bits 3..0
and bit 7 of `p` are preserved; it makes the readiness probe and then exactly one
transmit, of the single byte equal to that control byte, and returns the status of
the transmit. -/
theorem init_composes_control_byte (s : Session) (enableAnalogOutput inputMode : Nat)
    (reference_voltage : ℚ) (tx : HAL_StatusTypeDef) (hp : s.control_byte < 256) :
    (I2C_PCF8591_init s enableAnalogOutput inputMode reference_voltage HAL_OK tx).state.control_byte
      = (s.control_byte &&& 0x8F) ||| ((inputMode &&& 0x03) <<< 4)
          ||| ((enableAnalogOutput &&& 0x01) <<< 6) ∧
    (I2C_PCF8591_init s enableAnalogOutput inputMode reference_voltage HAL_OK tx).state.control_byte
        &&& 0x8F = s.control_byte &&& 0x8F ∧
    (I2C_PCF8591_init s enableAnalogOutput inputMode reference_voltage HAL_OK tx).calls
      = [BusCall.isDeviceReady 0x90 1,
         BusCall.transmit 0x90
           [(I2C_PCF8591_init s enableAnalogOutput inputMode reference_voltage HAL_OK
              tx).state.control_byte]] ∧
    transmits (I2C_PCF8591_init s enableAnalogOutput inputMode reference_voltage HAL_OK tx).calls
      = [BusCall.transmit 0x90
           [(I2C_PCF8591_init s enableAnalogOutput inputMode reference_voltage HAL_OK
              tx).state.control_byte]] ∧
    (I2C_PCF8591_init s enableAnalogOutput inputMode reference_voltage HAL_OK tx).ret = tx := by
  have hb := init_store_bits s.tx_data0 hp (inputMode &&& 0x03) (and_three_lt inputMode)
    (enableAnalogOutput &&& 0x01) (and_one_lt enableAnalogOutput)
  have hcb :
      (I2C_PCF8591_init s enableAnalogOutput inputMode reference_voltage HAL_OK
          tx).state.control_byte
        = (s.tx_data0 &&& 0x8F) ||| ((inputMode &&& 0x03) <<< 4)
            ||| ((enableAnalogOutput &&& 0x01) <<< 6) := by
    rw [← hb.1]
    simp [I2C_PCF8591_init, Session.control_byte]
  refine ⟨hcb, ?_, ?_, ?_, ?_⟩
  · rw [hcb]
    exact hb.2
  · rw [hcb, ← hb.1]
    simp [I2C_PCF8591_init, txBytes, size_1, PCF8591_address]
  · rw [hcb, ← hb.1]
    simp [I2C_PCF8591_init, txBytes, size_1, PCF8591_address, transmits]
  · simp [I2C_PCF8591_init]

theorem init_composes_control_byte_witness :
    (I2C_PCF8591_init Session.initial 1 0 (33 / 10) HAL_OK HAL_OK).state.control_byte = 0x40 ∧
    transmits (I2C_PCF8591_init Session.initial 1 0 (33 / 10) HAL_OK HAL_OK).calls
      = [BusCall.transmit 0x90 [0x40]] := by
  have h := init_composes_control_byte Session.initial 1 0 (33 / 10) HAL_OK (by decide)
  have h1 : (I2C_PCF8591_init Session.initial 1 0 (33 / 10) HAL_OK HAL_OK).state.control_byte
      = 0x40 := h.1
  refine ⟨h1, ?_⟩
  rw [h.2.2.2.1, h1]

/-- C8: for every state and all arguments, if the readiness probe reports a status
other than `HAL_OK` then `I2C_PCF8591_init` returns that status, issues no transmit
and leaves the control byte unchanged, yet `ref_voltage` holds the argument
`reference_voltage`; `ref_voltage` also holds the argument when the probe passes,
whatever the status of the transmit. -/
theorem init_not_ready (s : Session) (enableAnalogOutput inputMode : Nat)
    (reference_voltage : ℚ) (ready tx : HAL_StatusTypeDef) (hready : ready ≠ HAL_OK) :
    (I2C_PCF8591_init s enableAnalogOutput inputMode reference_voltage ready tx).ret = ready ∧
    transmits (I2C_PCF8591_init s enableAnalogOutput inputMode reference_voltage ready tx).calls
      = [] ∧
    (I2C_PCF8591_init s enableAnalogOutput inputMode reference_voltage ready tx).calls
      = [BusCall.isDeviceReady 0x90 1] ∧
    (I2C_PCF8591_init s enableAnalogOutput inputMode reference_voltage ready tx).state.control_byte
      = s.control_byte ∧
    (I2C_PCF8591_init s enableAnalogOutput inputMode reference_voltage ready tx).state.ref_voltage
      = reference_voltage ∧
    ∀ tx2 : HAL_StatusTypeDef,
      (I2C_PCF8591_init s enableAnalogOutput inputMode reference_voltage HAL_OK
          tx2).state.ref_voltage = reference_voltage := by
  refine ⟨?_, ?_, ?_, ?_, ?_, fun tx2 => ?_⟩ <;>
    simp [I2C_PCF8591_init, hready, transmits, Session.control_byte, PCF8591_address]

theorem init_not_ready_witness :
    (I2C_PCF8591_init Session.initial 1 2 5 HAL_TIMEOUT HAL_OK).ret = HAL_TIMEOUT ∧
    (I2C_PCF8591_init Session.initial 1 2 5 HAL_TIMEOUT HAL_OK).state.control_byte = 0 ∧
    (I2C_PCF8591_init Session.initial 1 2 5 HAL_TIMEOUT HAL_OK).state.ref_voltage = 5 ∧
    (I2C_PCF8591_init Session.initial 1 2 5 HAL_OK HAL_ERROR).state.ref_voltage = 5 :=
  ⟨(init_not_ready Session.initial 1 2 5 HAL_TIMEOUT HAL_OK (by decide)).1,
   (init_not_ready Session.initial 1 2 5 HAL_TIMEOUT HAL_OK (by decide)).2.2.2.1,
   (init_not_ready Session.initial 1 2 5 HAL_TIMEOUT HAL_OK (by decide)).2.2.2.2.1,
   (init_not_ready Session.initial 1 2 5 HAL_TIMEOUT HAL_OK (by decide)).2.2.2.2.2 HAL_ERROR⟩


/-- C9: for every 8-bit control byte `p` and every code `v`, `I2C_PCF8591_write_raw`
makes exactly one HAL call, a transmit of the two bytes `[p | 0x40, v]` (so no
receive), returns the status of that transmit, leaves the control byte equal to
`p | 0x40` (bit 6 set, every other bit as in `p`) and leaves `raw_data` and
`converted_data` unchanged. -/
theorem write_raw_framing (s : Session) (v : Nat) (tx : HAL_StatusTypeDef)
    (hp : s.control_byte < 256) :
    (I2C_PCF8591_write_raw s v tx).calls
      = [BusCall.transmit 0x90 [s.control_byte ||| 0x40, v]] ∧
    receives (I2C_PCF8591_write_raw s v tx).calls = [] ∧
    (I2C_PCF8591_write_raw s v tx).ret = tx ∧
    (I2C_PCF8591_write_raw s v tx).state.control_byte = s.control_byte ||| 0x40 ∧
    (I2C_PCF8591_write_raw s v tx).state.control_byte &&& 0x40 = 0x40 ∧
    (I2C_PCF8591_write_raw s v tx).state.control_byte &&& 0xBF = s.control_byte &&& 0xBF ∧
    (I2C_PCF8591_write_raw s v tx).state.raw_data = s.raw_data ∧
    (I2C_PCF8591_write_raw s v tx).state.converted_data = s.converted_data := by
  have hb := dac_enable_store_bits s.tx_data0 hp
  have hcb : (I2C_PCF8591_write_raw s v tx).state.control_byte = s.tx_data0 ||| 0x40 := by
    rw [← hb.1]
    rfl
  refine ⟨?_, ?_, rfl, hcb, ?_, ?_, rfl, rfl⟩
  · simp only [Session.control_byte]
    rw [← hb.1]
    simp [I2C_PCF8591_write_raw, txBytes, PCF8591_address]
  · simp [I2C_PCF8591_write_raw, receives]
  · rw [hcb]
    exact hb.2.2
  · rw [hcb]
    exact hb.2.1

theorem write_raw_framing_witness :
    (I2C_PCF8591_write_raw { Session.initial with tx_data0 := 0x12 } 200 HAL_OK).calls
      = [BusCall.transmit 0x90 [0x52, 200]] ∧
    (I2C_PCF8591_write_raw { Session.initial with tx_data0 := 0x12 } 200 HAL_OK).ret
      = HAL_OK :=
  ⟨(write_raw_framing { Session.initial with tx_data0 := 0x12 } 200 HAL_OK (by decide)).1,
   (write_raw_framing { Session.initial with tx_data0 := 0x12 } 200 HAL_OK
      (by decide)).2.2.1⟩

theorem castU8_255 : castU8 255 = 255 := by
  have h : truncToInt 255 = 255 := by
    unfold truncToInt
    rw [if_pos (by norm_num)]
    exact Int.floor_natCast 255
  simp [castU8, h]

/-- The data byte `I2C_PCF8591_write` stores when the request is above a positive
reference voltage. -/
theorem write_data_byte_above_ref (s : Session) (v : ℚ) (tx : HAL_StatusTypeDef)
    (href : 0 < s.ref_voltage) (hv : s.ref_voltage ≤ v) :
    (I2C_PCF8591_write s v tx).state.tx_data1 = 255 := by
  have hne : s.ref_voltage ≠ 0 := ne_of_gt href
  have hclamp : (if v > s.ref_voltage then s.ref_voltage else v) = s.ref_voltage := by
    split_ifs with h
    · rfl
    · exact le_antisymm (not_lt.mp h) hv
  have hconv : ADC_CONVERT s.ref_voltage s.ref_voltage = 255 := by
    simp [ADC_CONVERT, ADC_PCF_RESOLUTION, div_self hne]
  show castU8 (ADC_CONVERT (if v > s.ref_voltage then s.ref_voltage else v) s.ref_voltage) = 255
  rw [hclamp, hconv, castU8_255]

/-- The HAL calls of `I2C_PCF8591_write`: one transmit of the two bytes of `tx_data`
as they stand when the function returns. -/
theorem write_calls (s : Session) (v : ℚ) (tx : HAL_StatusTypeDef) :
    (I2C_PCF8591_write s v tx).calls
      = [BusCall.transmit 0x90
          [(I2C_PCF8591_write s v tx).state.tx_data0,
           (I2C_PCF8591_write s v tx).state.tx_data1]] := by
  simp [I2C_PCF8591_write, txBytes, PCF8591_address]

/-- C10: for every reference voltage `ref > 0` and every voltage `v > ref`,
`I2C_PCF8591_write v` transmits the same two bytes as `I2C_PCF8591_write ref`,
and the DAC data byte (the second one) is 255. -/
theorem write_clamps_above_reference (s : Session) (v : ℚ) (tx : HAL_StatusTypeDef)
    (href : 0 < s.ref_voltage) (hv : s.ref_voltage < v) :
    (I2C_PCF8591_write s v tx).calls = (I2C_PCF8591_write s s.ref_voltage tx).calls ∧
    (I2C_PCF8591_write s v tx).calls
      = [BusCall.transmit 0x90 [toU8 (s.control_byte ||| 0x40), 255]] ∧
    (I2C_PCF8591_write s v tx).state.tx_data1 = 255 ∧
    (I2C_PCF8591_write s s.ref_voltage tx).state.tx_data1 = 255 := by
  have h1 := write_data_byte_above_ref s v tx href (le_of_lt hv)
  have h2 := write_data_byte_above_ref s s.ref_voltage tx href (le_refl _)
  have h0 : ∀ w : ℚ, (I2C_PCF8591_write s w tx).state.tx_data0
      = toU8 (s.control_byte ||| 0x40) := fun _ => rfl
  refine ⟨?_, ?_, h1, h2⟩
  · rw [write_calls, write_calls, h1, h2, h0, h0]
  · rw [write_calls, h1, h0]

theorem write_clamps_above_reference_witness :
    (I2C_PCF8591_write Session.initial 5 HAL_OK).calls
      = [BusCall.transmit 0x90 [0x40, 255]] ∧
    (I2C_PCF8591_write Session.initial 5 HAL_OK).calls
      = (I2C_PCF8591_write Session.initial (33 / 10) HAL_OK).calls :=
  ⟨(write_clamps_above_reference Session.initial 5 HAL_OK
      (by norm_num [Session.initial]) (by norm_num [Session.initial])).2.1,
   (write_clamps_above_reference Session.initial 5 HAL_OK
      (by norm_num [Session.initial]) (by norm_num [Session.initial])).1⟩


/-! ## The voltage conversions -/

/-- The data byte of `I2C_PCF8591_write` is the cast of `ADC_CONVERT` applied to the
value left by line 75. -/
theorem write_data_byte (s : Session) (v : ℚ) (tx : HAL_StatusTypeDef) :
    (I2C_PCF8591_write s v tx).state.tx_data1
      = castU8 (ADC_CONVERT (write_clamped s v) s.ref_voltage) := rfl

/-- Line 75 leaves a value that does not exceed the reference untouched. -/
theorem write_clamped_of_le (s : Session) (v : ℚ) (h : v ≤ s.ref_voltage) :
    write_clamped s v = v := by
  unfold write_clamped
  rw [if_neg (not_lt.mpr h)]

/-- The cast of a value in `[0, 256)` is its floor. -/
theorem castU8_of_nonneg (q : ℚ) (h0 : 0 ≤ q) (h1 : q < 256) :
    ((castU8 q : Nat) : Int) = ⌊q⌋ := by
  have hf0 : 0 ≤ ⌊q⌋ := Int.floor_nonneg.mpr h0
  have hf1 : ⌊q⌋ < 256 := by
    rw [Int.floor_lt]
    exact_mod_cast h1
  unfold castU8 truncToInt
  rw [if_pos h0, Int.emod_eq_of_lt hf0 hf1, Int.toNat_of_nonneg hf0]

/-- The cast of a value in `(-1, 0]` is zero. -/
theorem castU8_of_small_neg (q : ℚ) (h0 : -1 < q) (h1 : q ≤ 0) : castU8 q = 0 := by
  unfold castU8 truncToInt
  split_ifs with h
  · have hq : q = 0 := le_antisymm h1 h
    subst hq
    simp
  · have hc : ⌈q⌉ = 0 := by
      rw [Int.ceil_eq_iff]
      constructor
      · simpa using h0
      · simpa using h1
    rw [hc]
    rfl

/-- The value `ADC_CONVERT v ref` lies in `[0, 255]` when `0 ≤ v ≤ ref` and `0 < ref`. -/
theorem ADC_CONVERT_range (v ref : ℚ) (href : 0 < ref) (h0 : 0 ≤ v) (h1 : v ≤ ref) :
    0 ≤ ADC_CONVERT v ref ∧ ADC_CONVERT v ref ≤ 255 := by
  unfold ADC_CONVERT ADC_PCF_RESOLUTION
  have hd0 : 0 ≤ v / ref := div_nonneg h0 (le_of_lt href)
  have hd1 : v / ref ≤ 1 := (div_le_one href).mpr h1
  constructor
  · positivity
  · push_cast
    nlinarith


/-- The data byte of `I2C_PCF8591_write` for a request in `[0, ref]`: the floor of
`(v / ref) * 255`. -/
theorem write_data_byte_in_range (s : Session) (v : ℚ) (tx : HAL_StatusTypeDef)
    (href : 0 < s.ref_voltage) (h0 : 0 ≤ v) (h1 : v ≤ s.ref_voltage) :
    (((I2C_PCF8591_write s v tx).state.tx_data1 : Nat) : Int)
      = ⌊(v / s.ref_voltage) * 255⌋ := by
  have hr := ADC_CONVERT_range v s.ref_voltage href h0 h1
  rw [write_data_byte, write_clamped_of_le s v h1,
    castU8_of_nonneg _ hr.1 (lt_of_le_of_lt hr.2 (by norm_num))]
  simp [ADC_CONVERT, ADC_PCF_RESOLUTION]

/-- A request just below zero: for every reference voltage `ref > 0` and every
voltage `v` with `-ref/255 < v < 0`, `I2C_PCF8591_write v` transmits the same bytes
as `I2C_PCF8591_write 0`, with data byte 0.  Line 75 leaves `v` as it is, and the
cast drops the fraction of a value between -1 and 0. -/
theorem write_below_zero_small (s : Session) (v : ℚ) (tx : HAL_StatusTypeDef)
    (href : 0 < s.ref_voltage) (hv : v < 0) (hlow : -(s.ref_voltage / 255) < v) :
    (I2C_PCF8591_write s v tx).state.tx_data1 = 0 ∧
    (I2C_PCF8591_write s 0 tx).state.tx_data1 = 0 ∧
    (I2C_PCF8591_write s v tx).calls = (I2C_PCF8591_write s 0 tx).calls ∧
    write_clamped s v = v := by
  have hle : v ≤ s.ref_voltage := le_of_lt (lt_trans hv href)
  have hc := write_clamped_of_le s v hle
  have hz := write_clamped_of_le s 0 (le_of_lt href)
  have hlo : -1 < ADC_CONVERT v s.ref_voltage := by
    unfold ADC_CONVERT ADC_PCF_RESOLUTION
    have h : -(s.ref_voltage / 255) / s.ref_voltage < v / s.ref_voltage :=
      div_lt_div_of_pos_right hlow href
    have h2 : -(s.ref_voltage / 255) / s.ref_voltage = -(1 / 255) := by
      field_simp
      ring
    rw [h2] at h
    push_cast
    linarith
  have hhi : ADC_CONVERT v s.ref_voltage ≤ 0 := by
    unfold ADC_CONVERT ADC_PCF_RESOLUTION
    have h : v / s.ref_voltage ≤ 0 := div_nonpos_of_nonpos_of_nonneg (le_of_lt hv) (le_of_lt href)
    push_cast
    linarith
  have h1 : (I2C_PCF8591_write s v tx).state.tx_data1 = 0 := by
    rw [write_data_byte, hc]
    exact castU8_of_small_neg _ hlo hhi
  have h0 : (I2C_PCF8591_write s 0 tx).state.tx_data1 = 0 := by
    rw [write_data_byte, hz]
    exact castU8_of_small_neg _ (by simp [ADC_CONVERT]) (by simp [ADC_CONVERT])
  have ht : ∀ w : ℚ, (I2C_PCF8591_write s w tx).state.tx_data0
      = toU8 (s.tx_data0 ||| 0x40) := fun _ => rfl
  refine ⟨h1, h0, ?_, hc⟩
  rw [write_calls, write_calls, h1, h0, ht, ht]

theorem write_below_zero_small_witness :
    (I2C_PCF8591_write Session.initial (-1 / 100) HAL_OK).state.tx_data1 = 0 ∧
    (I2C_PCF8591_write Session.initial (-1 / 100) HAL_OK).calls
      = (I2C_PCF8591_write Session.initial 0 HAL_OK).calls :=
  ⟨(write_below_zero_small Session.initial (-1 / 100) HAL_OK
      (by norm_num [Session.initial]) (by norm_num) (by norm_num [Session.initial])).1,
   (write_below_zero_small Session.initial (-1 / 100) HAL_OK
      (by norm_num [Session.initial]) (by norm_num) (by norm_num [Session.initial])).2.2.1⟩


/-- The clamp of the specification leaves a value of `[0, ref]` as it is. -/
theorem spec_clamp_in_range (v ref : ℚ) (h0 : 0 ≤ v) (h1 : v ≤ ref) : spec_clamp v ref = v := by
  unfold spec_clamp
  rw [min_eq_left h1, max_eq_right h0]

/-- C12, as stated, fails: with the reference 3.3 the request 1.65 has
`(v / ref) * 255 = 127.5`, which rounds to 128, but the transmitted data byte is 127;
and the request 3.2967 has `(v / ref) * 255 = 254.745`, which rounds to 255, but the
transmitted data byte is 254. -/
theorem write_truncates_not_rounds :
    ADC_CONVERT (165 / 100) Session.initial.ref_voltage = 255 / 2 ∧
    spec_voltage_to_code (165 / 100) Session.initial.ref_voltage = 128 ∧
    (I2C_PCF8591_write Session.initial (165 / 100) HAL_OK).calls
      = [BusCall.transmit 0x90 [0x40, 127]] ∧
    spec_voltage_to_code (32967 / 10000) Session.initial.ref_voltage = 255 ∧
    (I2C_PCF8591_write Session.initial (32967 / 10000) HAL_OK).state.tx_data1 = 254 := by
  have href : (0 : ℚ) < Session.initial.ref_voltage := by norm_num [Session.initial]
  have ha := write_data_byte_in_range Session.initial (165 / 100) HAL_OK href
    (by norm_num) (by norm_num [Session.initial])
  have hb := write_data_byte_in_range Session.initial (32967 / 10000) HAL_OK href
    (by norm_num) (by norm_num [Session.initial])
  have fa : ⌊((165 : ℚ) / 100 / Session.initial.ref_voltage) * 255⌋ = 127 := by
    rw [Int.floor_eq_iff]
    norm_num [Session.initial]
  have fb : ⌊((32967 : ℚ) / 10000 / Session.initial.ref_voltage) * 255⌋ = 254 := by
    rw [Int.floor_eq_iff]
    norm_num [Session.initial]
  rw [fa] at ha
  rw [fb] at hb
  have ha2 : (I2C_PCF8591_write Session.initial (165 / 100) HAL_OK).state.tx_data1 = 127 := by
    exact_mod_cast ha
  have hb2 : (I2C_PCF8591_write Session.initial (32967 / 10000) HAL_OK).state.tx_data1
      = 254 := by
    exact_mod_cast hb
  refine ⟨?_, ?_, ?_, ?_, hb2⟩
  · norm_num [ADC_CONVERT, ADC_PCF_RESOLUTION, Session.initial]
  · unfold spec_voltage_to_code
    rw [spec_clamp_in_range _ _ (by norm_num) (by norm_num [Session.initial]), round_eq,
      Int.floor_eq_iff]
    norm_num [Session.initial]
  · rw [write_calls, ha2]
    rfl
  · unfold spec_voltage_to_code
    rw [spec_clamp_in_range _ _ (by norm_num) (by norm_num [Session.initial]), round_eq,
      Int.floor_eq_iff]
    norm_num [Session.initial]

/-- C12, amended: for every reference voltage `ref > 0` and every voltage `v` in
`[0, ref]`, the DAC data byte transmitted by `I2C_PCF8591_write v` equals
`(v / ref) * 255` with the fraction dropped (the floor), which is the rounded value
of the specification or one less. -/
theorem write_truncates (s : Session) (v : ℚ) (tx : HAL_StatusTypeDef)
    (href : 0 < s.ref_voltage) (h0 : 0 ≤ v) (h1 : v ≤ s.ref_voltage) :
    (((I2C_PCF8591_write s v tx).state.tx_data1 : Nat) : Int)
      = ⌊(v / s.ref_voltage) * 255⌋ ∧
    (I2C_PCF8591_write s v tx).calls
      = [BusCall.transmit 0x90
          [toU8 (s.control_byte ||| 0x40), ⌊(v / s.ref_voltage) * 255⌋.toNat]] ∧
    spec_voltage_to_code v s.ref_voltage - 1
      ≤ (((I2C_PCF8591_write s v tx).state.tx_data1 : Nat) : Int) ∧
    (((I2C_PCF8591_write s v tx).state.tx_data1 : Nat) : Int)
      ≤ spec_voltage_to_code v s.ref_voltage := by
  have hb := write_data_byte_in_range s v tx href h0 h1
  have hspec : spec_voltage_to_code v s.ref_voltage
      = ⌊(v / s.ref_voltage) * 255 + 1 / 2⌋ := by
    unfold spec_voltage_to_code
    rw [spec_clamp_in_range v _ h0 h1, round_eq]
  have hup : ⌊(v / s.ref_voltage) * 255 + 1 / 2⌋ ≤ ⌊(v / s.ref_voltage) * 255⌋ + 1 := by
    rw [← Int.floor_add_one]
    exact Int.floor_le_floor (by linarith)
  have hdown : ⌊(v / s.ref_voltage) * 255⌋ ≤ ⌊(v / s.ref_voltage) * 255 + 1 / 2⌋ :=
    Int.floor_le_floor (by linarith)
  refine ⟨hb, ?_, ?_, ?_⟩
  · rw [write_calls, ← hb, Int.toNat_natCast]
    rfl
  · rw [hb, hspec]
    linarith
  · rw [hb, hspec]
    exact hdown

theorem write_truncates_witness :
    (((I2C_PCF8591_write Session.initial (165 / 100) HAL_OK).state.tx_data1 : Nat) : Int)
      = ⌊((165 : ℚ) / 100 / Session.initial.ref_voltage) * 255⌋ :=
  (write_truncates Session.initial (165 / 100) HAL_OK (by norm_num [Session.initial])
    (by norm_num) (by norm_num [Session.initial])).1


/-- C13: for every code `c` in 0..255 and every reference voltage `ref > 0`, the
voltage `DAC_CONVERT c ref` handed to `I2C_PCF8591_write` is transmitted as a data
byte `c2` with `|c2 - c| ≤ 1`; over the rationals `c2` is `c` itself. -/
theorem code_round_trip (s : Session) (c : Nat) (tx : HAL_StatusTypeDef)
    (href : 0 < s.ref_voltage) (hc : c ≤ 255) :
    |(((I2C_PCF8591_write s (DAC_CONVERT c s.ref_voltage) tx).state.tx_data1 : Nat) : Int)
        - (c : Int)| ≤ 1 ∧
    (I2C_PCF8591_write s (DAC_CONVERT c s.ref_voltage) tx).state.tx_data1 = c := by
  have hne : s.ref_voltage ≠ 0 := ne_of_gt href
  have hcq : (c : ℚ) ≤ 255 := by exact_mod_cast hc
  have hd0 : 0 ≤ DAC_CONVERT c s.ref_voltage := by
    unfold DAC_CONVERT ADC_PCF_RESOLUTION
    have : (0 : ℚ) ≤ (c : ℚ) := Nat.cast_nonneg c
    positivity
  have hd1 : DAC_CONVERT c s.ref_voltage ≤ s.ref_voltage := by
    unfold DAC_CONVERT ADC_PCF_RESOLUTION
    have h : (c : ℚ) / ((255 : Nat) : ℚ) ≤ 1 := by
      rw [div_le_one (by norm_num)]
      exact_mod_cast hc
    nlinarith
  have hb := write_data_byte_in_range s (DAC_CONVERT c s.ref_voltage) tx href hd0 hd1
  have hx : (DAC_CONVERT c s.ref_voltage / s.ref_voltage) * 255 = (c : ℚ) := by
    unfold DAC_CONVERT ADC_PCF_RESOLUTION
    field_simp
    ring
  rw [hx, Int.floor_natCast] at hb
  have heq : (I2C_PCF8591_write s (DAC_CONVERT c s.ref_voltage) tx).state.tx_data1 = c := by
    exact_mod_cast hb
  refine ⟨?_, heq⟩
  rw [heq]
  simp

theorem code_round_trip_witness :
    (I2C_PCF8591_write Session.initial (DAC_CONVERT 200 Session.initial.ref_voltage)
      HAL_OK).state.tx_data1 = 200 :=
  (code_round_trip Session.initial 200 HAL_OK (by norm_num [Session.initial])
    (by decide)).2

/-- C14: for every reference voltage `ref > 0` and every voltage `v` in `[0, ref]`, the
data byte that `I2C_PCF8591_write v` transmits, converted back with `DAC_CONVERT`,
differs from `v` by at most one code step: `|DAC_CONVERT code ref - v| ≤ ref / 255`. -/
theorem voltage_round_trip (s : Session) (v : ℚ) (tx : HAL_StatusTypeDef)
    (href : 0 < s.ref_voltage) (h0 : 0 ≤ v) (h1 : v ≤ s.ref_voltage) :
    |DAC_CONVERT (I2C_PCF8591_write s v tx).state.tx_data1 s.ref_voltage - v|
      ≤ s.ref_voltage / 255 := by
  have hne : s.ref_voltage ≠ 0 := ne_of_gt href
  have hb := write_data_byte_in_range s v tx href h0 h1
  have hq : (((I2C_PCF8591_write s v tx).state.tx_data1 : Nat) : ℚ)
      = ((⌊(v / s.ref_voltage) * 255⌋ : Int) : ℚ) := by
    exact_mod_cast congrArg (fun z : Int => (z : ℚ)) hb
  have hfl : ((⌊(v / s.ref_voltage) * 255⌋ : Int) : ℚ) ≤ (v / s.ref_voltage) * 255 :=
    Int.floor_le _
  have hfu : (v / s.ref_voltage) * 255 < ((⌊(v / s.ref_voltage) * 255⌋ : Int) : ℚ) + 1 :=
    Int.lt_floor_add_one _
  have hstep : (0 : ℚ) < s.ref_voltage / 255 := by positivity
  have hdiff : DAC_CONVERT (I2C_PCF8591_write s v tx).state.tx_data1 s.ref_voltage - v
      = (((⌊(v / s.ref_voltage) * 255⌋ : Int) : ℚ) - (v / s.ref_voltage) * 255)
          * (s.ref_voltage / 255) := by
    unfold DAC_CONVERT ADC_PCF_RESOLUTION
    rw [hq]
    push_cast
    field_simp
    ring
  rw [hdiff, abs_le]
  constructor
  · nlinarith
  · nlinarith

theorem voltage_round_trip_witness :
    |DAC_CONVERT (I2C_PCF8591_write Session.initial (165 / 100) HAL_OK).state.tx_data1
        Session.initial.ref_voltage - 165 / 100|
      ≤ Session.initial.ref_voltage / 255 :=
  voltage_round_trip Session.initial (165 / 100) HAL_OK (by norm_num [Session.initial])
    (by norm_num) (by norm_num [Session.initial])


/-! ## Sequencing of the reads -/

set_option maxRecDepth 100000 in
theorem auto_increment_store_bits : ∀ p < 256,
    toU8 (p &&& cNot TX_AUTO_INCREMENT_FLAG) = p &&& 0xFB ∧
    (p &&& 0xFB) &&& 0x04 = 0 ∧ (p &&& 0xFB) &&& 0xFB = p &&& 0xFB := by
  decide

/-- The HAL calls of the two all-channel reads. -/
theorem read_all_calls (s : Session) (tx : HAL_StatusTypeDef)
    (rx : HAL_StatusTypeDef × List Nat) :
    (I2C_PCF8591_read_raw s tx rx).calls
      = BusCall.transmit 0x90 [toU8 (s.tx_data0 &&& cNot TX_AUTO_INCREMENT_FLAG)]
          :: (if tx = HAL_OK then [BusCall.receive 0x90 5] else []) ∧
    (I2C_PCF8591_read s tx rx).calls
      = BusCall.transmit 0x90 [toU8 (s.tx_data0 &&& cNot TX_AUTO_INCREMENT_FLAG)]
          :: (if tx = HAL_OK then [BusCall.receive 0x90 5] else []) ∧
    (I2C_PCF8591_read_raw s tx rx).state.tx_data0
      = toU8 (s.tx_data0 &&& cNot TX_AUTO_INCREMENT_FLAG) ∧
    (I2C_PCF8591_read s tx rx).state.tx_data0
      = toU8 (s.tx_data0 &&& cNot TX_AUTO_INCREMENT_FLAG) := by
  by_cases htx : tx = HAL_OK <;> by_cases hrx : rx.1 = HAL_OK <;>
    simp [I2C_PCF8591_read_raw, I2C_PCF8591_read, htx, hrx, txBytes, size_1, PCF8591_address,
      foldl_finRange4, read_raw_body, read_body]

/-- C15: for every 8-bit control byte `p`, `I2C_PCF8591_read_raw` and
`I2C_PCF8591_read` set the control byte to `p` with bit 2 cleared and every other bit
unchanged, transmit exactly one byte equal to that control byte, and then, only if
the transmit reported `HAL_OK`, issue exactly one receive of 5 bytes. -/
theorem read_all_sequencing (s : Session) (tx : HAL_StatusTypeDef)
    (rx : HAL_StatusTypeDef × List Nat) (hp : s.control_byte < 256) :
    ((I2C_PCF8591_read_raw s tx rx).state.control_byte = s.control_byte &&& 0xFB ∧
      (I2C_PCF8591_read s tx rx).state.control_byte = s.control_byte &&& 0xFB) ∧
    ((s.control_byte &&& 0xFB) &&& 0x04 = 0 ∧
      (s.control_byte &&& 0xFB) &&& 0xFB = s.control_byte &&& 0xFB) ∧
    (I2C_PCF8591_read_raw s tx rx).calls
      = BusCall.transmit 0x90 [s.control_byte &&& 0xFB]
          :: (if tx = HAL_OK then [BusCall.receive 0x90 5] else []) ∧
    (I2C_PCF8591_read s tx rx).calls
      = BusCall.transmit 0x90 [s.control_byte &&& 0xFB]
          :: (if tx = HAL_OK then [BusCall.receive 0x90 5] else []) := by
  have hb := auto_increment_store_bits s.tx_data0 hp
  have hc := read_all_calls s tx rx
  simp only [Session.control_byte]
  rw [hc.1, hc.2.1, hc.2.2.1, hc.2.2.2, hb.1]
  exact ⟨⟨rfl, rfl⟩, ⟨hb.2.1, hb.2.2⟩, rfl, rfl⟩

theorem read_all_sequencing_witness :
    (I2C_PCF8591_read_raw { Session.initial with tx_data0 := 0x56 } HAL_OK
        (HAL_OK, [0xFF, 1, 2, 3, 4])).calls
      = [BusCall.transmit 0x90 [0x52], BusCall.receive 0x90 5] ∧
    (I2C_PCF8591_read { Session.initial with tx_data0 := 0x56 } HAL_BUSY
        (HAL_OK, [0xFF, 1, 2, 3, 4])).calls
      = [BusCall.transmit 0x90 [0x52]] :=
  ⟨(read_all_sequencing { Session.initial with tx_data0 := 0x56 } HAL_OK
      (HAL_OK, [0xFF, 1, 2, 3, 4]) (by decide)).2.2.1,
   (read_all_sequencing { Session.initial with tx_data0 := 0x56 } HAL_BUSY
      (HAL_OK, [0xFF, 1, 2, 3, 4]) (by decide)).2.2.2⟩

/-- C16: from the same state and with the same answers of the HAL,
`I2C_PCF8591_read_ch` and `I2C_PCF8591_read_ch_raw` (for every channel value), and
likewise `I2C_PCF8591_read` and `I2C_PCF8591_read_raw`, make the same HAL calls with
the same bytes and lengths, return `NULL` in the same cases, and leave the same
control byte and the same `raw_data`. -/
theorem voltage_and_raw_reads_agree (s : Session) (channel : Nat)
    (tx : HAL_StatusTypeDef) (rx : HAL_StatusTypeDef × List Nat) :
    ((I2C_PCF8591_read_ch s channel tx rx).calls
        = (I2C_PCF8591_read_ch_raw s channel tx rx).calls ∧
      (I2C_PCF8591_read_ch s channel tx rx).ret.isSome
        = (I2C_PCF8591_read_ch_raw s channel tx rx).ret.isSome ∧
      (I2C_PCF8591_read_ch s channel tx rx).state.control_byte
        = (I2C_PCF8591_read_ch_raw s channel tx rx).state.control_byte ∧
      (I2C_PCF8591_read_ch s channel tx rx).state.raw_data
        = (I2C_PCF8591_read_ch_raw s channel tx rx).state.raw_data) ∧
    ((I2C_PCF8591_read s tx rx).calls = (I2C_PCF8591_read_raw s tx rx).calls ∧
      (I2C_PCF8591_read s tx rx).ret.isSome = (I2C_PCF8591_read_raw s tx rx).ret.isSome ∧
      (I2C_PCF8591_read s tx rx).state.control_byte
        = (I2C_PCF8591_read_raw s tx rx).state.control_byte ∧
      (I2C_PCF8591_read s tx rx).state.raw_data
        = (I2C_PCF8591_read_raw s tx rx).state.raw_data) := by
  refine ⟨⟨rfl, rfl, rfl, rfl⟩, ?_⟩
  by_cases htx : tx = HAL_OK <;> by_cases hrx : rx.1 = HAL_OK <;>
    simp [I2C_PCF8591_read_raw, I2C_PCF8591_read, htx, hrx, Session.control_byte,
      foldl_finRange4, read_raw_body, read_body]


/-! ## The control byte across sequences of calls -/

/-- What one call does to the control byte and which transmits it makes: either it
makes no transmit and leaves the control byte alone, or it makes exactly one
transmit, whose first byte is the control byte it leaves behind. -/
theorem Op.run_transmits (s : Session) (op : Op) :
    (transmits (op.run s).2 = [] ∧ commandBytes (op.run s).2 = [] ∧
      (op.run s).1.tx_data0 = s.tx_data0) ∨
    (∃ rest : List Nat,
      transmits (op.run s).2 = [BusCall.transmit 0x90 ((op.run s).1.tx_data0 :: rest)] ∧
      commandBytes (op.run s).2 = [(op.run s).1.tx_data0]) := by
  cases op with
  | init e m r ready tx =>
    by_cases h : ready = HAL_OK
    · right
      exact ⟨[], by
        simp [Op.run, I2C_PCF8591_init, h, transmits, commandBytes, commandByte, txBytes,
          size_1, PCF8591_address]⟩
    · left
      simp [Op.run, I2C_PCF8591_init, h, transmits, commandBytes, commandByte]
  | write_raw v tx =>
    right
    exact ⟨[v], by
      simp [Op.run, I2C_PCF8591_write_raw, transmits, commandBytes, commandByte, txBytes,
        PCF8591_address]⟩
  | write v tx =>
    right
    exact ⟨[(I2C_PCF8591_write s v tx).state.tx_data1], by
      simp [Op.run, I2C_PCF8591_write, transmits, commandBytes, commandByte, txBytes,
        PCF8591_address]⟩
  | read_ch_raw c tx rx =>
    by_cases hc : c > 3
    · left
      simp [Op.run, I2C_PCF8591_read_ch_raw, hc, transmits, commandBytes]
    · right
      refine ⟨[], ?_⟩
      by_cases htx : tx = HAL_OK <;> by_cases hrx : rx.1 = HAL_OK <;>
        simp [Op.run, I2C_PCF8591_read_ch_raw, hc, htx, hrx, transmits, commandBytes,
          commandByte, txBytes, size_1, PCF8591_address]
  | read_raw tx rx =>
    right
    refine ⟨[], ?_⟩
    by_cases htx : tx = HAL_OK <;> by_cases hrx : rx.1 = HAL_OK <;>
      simp [Op.run, I2C_PCF8591_read_raw, htx, hrx, transmits, commandBytes,
        commandByte, txBytes, size_1, PCF8591_address, foldl_finRange4, read_raw_body]
  | read_ch c tx rx =>
    by_cases hc : c > 3
    · left
      simp [Op.run, I2C_PCF8591_read_ch, hc, transmits, commandBytes]
    · right
      refine ⟨[], ?_⟩
      by_cases htx : tx = HAL_OK <;> by_cases hrx : rx.1 = HAL_OK <;>
        simp [Op.run, I2C_PCF8591_read_ch, hc, htx, hrx, transmits, commandBytes,
          commandByte, txBytes, size_1, PCF8591_address]
  | read tx rx =>
    right
    refine ⟨[], ?_⟩
    by_cases htx : tx = HAL_OK <;> by_cases hrx : rx.1 = HAL_OK <;>
      simp [Op.run, I2C_PCF8591_read, htx, hrx, transmits, commandBytes,
        commandByte, txBytes, size_1, PCF8591_address, foldl_finRange4, read_body]

/-- A transmit that occurs in a list of HAL calls occurs among its transmits. -/
theorem mem_transmits (cs : List BusCall) (a : Nat) (d : List Nat)
    (h : BusCall.transmit a d ∈ cs) : BusCall.transmit a d ∈ transmits cs := by
  unfold transmits
  rw [List.mem_filter]
  exact ⟨h, rfl⟩

/-- Every transmit of one call carries the control byte the call leaves behind. -/
theorem Op.run_transmit_head (s : Session) (op : Op) (a : Nat) (d : List Nat)
    (h : BusCall.transmit a d ∈ (op.run s).2) :
    ∃ rest : List Nat, d = (op.run s).1.tx_data0 :: rest := by
  have hm := mem_transmits _ a d h
  rcases Op.run_transmits s op with ⟨h0, _, _⟩ | ⟨rest, h1, _⟩
  · rw [h0] at hm
    exact absurd hm (List.not_mem_nil _)
  · rw [h1, List.mem_singleton] at hm
    injection hm with _ hd
    exact ⟨rest, hd⟩

/-- Over a sequence of calls started in any state, the control byte at the end is the
command byte of the last transmit, or the control byte at the start if there was no
transmit. -/
theorem runAll_control_byte (ops : List Op) :
    ∀ s : Session,
      (runAll s ops).1.tx_data0 = (lastCommandByte (runAll s ops).2).getD s.tx_data0 := by
  induction ops with
  | nil =>
    intro s
    rfl
  | cons op ops ih =>
    intro s
    have hrec := ih (op.run s).1
    simp only [runAll, lastCommandByte, commandBytes, List.filterMap_append,
      List.getLast?_append] at hrec ⊢
    rw [hrec]
    cases hl : (List.filterMap commandByte (runAll (op.run s).1 ops).2).getLast? with
    | some b => simp
    | none =>
      rcases Op.run_transmits s op with ⟨_, h0, hs⟩ | ⟨rest, _, h1⟩
      · simp only [commandBytes] at h0
        simp [h0, hs]
      · simp only [commandBytes] at h1
        simp [h1]


set_option maxRecDepth 100000 in
theorem reserved_bits_kept_init : ∀ p < 256, ∀ k < 4, ∀ j < 2, p &&& 0x8C ≠ 0 ∨
    ReservedBitsClear
      (toU8 ((p &&& cNot TX_INPUT_MODE_MASK) ||| toU8 (k <<< 4) ||| toU8 (j <<< 6))) := by
  unfold ReservedBitsClear
  decide

set_option maxRecDepth 100000 in
theorem reserved_bits_kept_channel : ∀ p < 256, ∀ c < 4, p &&& 0x8C ≠ 0 ∨
    ReservedBitsClear (toU8 ((p &&& cNot TX_CHANNEL_MASK) ||| c)) := by
  unfold ReservedBitsClear
  decide

set_option maxRecDepth 100000 in
theorem reserved_bits_kept_flags : ∀ p < 256, p &&& 0x8C ≠ 0 ∨
    (ReservedBitsClear (toU8 (p ||| 0x40)) ∧
      ReservedBitsClear (toU8 (p &&& cNot TX_AUTO_INCREMENT_FLAG))) := by
  unfold ReservedBitsClear
  decide

/-- The four ways the driver rewrites the control byte keep it an 8-bit value with
bits 7, 3 and 2 clear. -/
theorem reserved_bits_kept (p : Nat) (hp : p < 256) (hb : p &&& 0x8C = 0) :
    (∀ k < 4, ∀ j < 2, ReservedBitsClear
      (toU8 ((p &&& cNot TX_INPUT_MODE_MASK) ||| toU8 (k <<< 4) ||| toU8 (j <<< 6)))) ∧
    ReservedBitsClear (toU8 (p ||| 0x40)) ∧
    (∀ c < 4, ReservedBitsClear (toU8 ((p &&& cNot TX_CHANNEL_MASK) ||| c))) ∧
    ReservedBitsClear (toU8 (p &&& cNot TX_AUTO_INCREMENT_FLAG)) := by
  have hf := (reserved_bits_kept_flags p hp).resolve_left (fun h => h hb)
  refine ⟨fun k hk j hj => ?_, hf.1, fun c hc => ?_, hf.2⟩
  · exact (reserved_bits_kept_init p hp k hk j hj).resolve_left (fun h => h hb)
  · exact (reserved_bits_kept_channel p hp c hc).resolve_left (fun h => h hb)

/-- One call keeps the unused bits and the auto-increment bit of the control byte
clear. -/
theorem Op.run_reserved_bits (s : Session) (op : Op) (h : ReservedBitsClear s.tx_data0) :
    ReservedBitsClear (op.run s).1.tx_data0 := by
  have hk := reserved_bits_kept s.tx_data0 h.1 h.2
  cases op with
  | init e m r ready tx =>
    by_cases hr : ready = HAL_OK
    · have e1 : (Op.run s (Op.init e m r ready tx)).1.tx_data0
          = toU8 ((s.tx_data0 &&& cNot TX_INPUT_MODE_MASK) ||| toU8 ((m &&& 0x03) <<< 4)
              ||| toU8 ((e &&& 0x01) <<< 6)) := by
        simp [Op.run, I2C_PCF8591_init, hr]
      rw [e1]
      exact hk.1 _ (and_three_lt m) _ (and_one_lt e)
    · have e1 : (Op.run s (Op.init e m r ready tx)).1.tx_data0 = s.tx_data0 := by
        simp [Op.run, I2C_PCF8591_init, hr]
      rw [e1]
      exact h
  | write_raw v tx => exact hk.2.1
  | write v tx => exact hk.2.1
  | read_ch_raw c tx rx =>
    by_cases hc : c > 3
    · have e1 : (Op.run s (Op.read_ch_raw c tx rx)).1.tx_data0 = s.tx_data0 := by
        simp [Op.run, I2C_PCF8591_read_ch_raw, hc]
      rw [e1]
      exact h
    · have e1 : (Op.run s (Op.read_ch_raw c tx rx)).1.tx_data0
          = toU8 ((s.tx_data0 &&& cNot TX_CHANNEL_MASK) ||| c) :=
        (read_ch_control_byte s c (by omega) tx rx).1
      rw [e1]
      exact hk.2.2.1 c (by omega)
  | read_raw tx rx =>
    have e1 : (Op.run s (Op.read_raw tx rx)).1.tx_data0
        = toU8 (s.tx_data0 &&& cNot TX_AUTO_INCREMENT_FLAG) := (read_all_calls s tx rx).2.2.1
    rw [e1]
    exact hk.2.2.2
  | read_ch c tx rx =>
    by_cases hc : c > 3
    · have e1 : (Op.run s (Op.read_ch c tx rx)).1.tx_data0 = s.tx_data0 := by
        simp [Op.run, I2C_PCF8591_read_ch, hc]
      rw [e1]
      exact h
    · have e1 : (Op.run s (Op.read_ch c tx rx)).1.tx_data0
          = toU8 ((s.tx_data0 &&& cNot TX_CHANNEL_MASK) ||| c) :=
        (read_ch_control_byte s c (by omega) tx rx).2
      rw [e1]
      exact hk.2.2.1 c (by omega)
  | read tx rx =>
    have e1 : (Op.run s (Op.read tx rx)).1.tx_data0
        = toU8 (s.tx_data0 &&& cNot TX_AUTO_INCREMENT_FLAG) := (read_all_calls s tx rx).2.2.2
    rw [e1]
    exact hk.2.2.2

/-- Over a sequence of calls started in a state whose control byte has the unused
bits and the auto-increment bit clear, the control byte at the end and the first
byte of every transmit have them clear. -/
theorem runAll_reserved_bits (ops : List Op) :
    ∀ s : Session, ReservedBitsClear s.tx_data0 →
      ReservedBitsClear (runAll s ops).1.tx_data0 ∧
      ∀ (a : Nat) (d : List Nat), BusCall.transmit a d ∈ (runAll s ops).2 →
        ∃ b rest, d = b :: rest ∧ ReservedBitsClear b := by
  induction ops with
  | nil =>
    intro s h
    exact ⟨h, fun a d hm => absurd hm (List.not_mem_nil _)⟩
  | cons op ops ih =>
    intro s h
    have h1 := Op.run_reserved_bits s op h
    have h2 := ih (op.run s).1 h1
    refine ⟨h2.1, fun a d hm => ?_⟩
    simp only [runAll, List.mem_append] at hm
    rcases hm with hm | hm
    · obtain ⟨rest, hd⟩ := Op.run_transmit_head s op a d hm
      exact ⟨_, rest, hd, h1⟩
    · exact h2.2 a d hm

/-- C17: every transmit a call of the public surface issues carries as its first
byte the control byte as it stands when the call returns, and a call that issues no
transmit leaves the control byte unchanged; hence after every sequence of calls from
the initial statics the control byte equals the command byte of the most recent
transmit, or 0 if no transmit was ever issued. -/
theorem control_byte_mirrors_command_byte (s : Session) (op : Op) (ops : List Op) :
    (∀ (a : Nat) (d : List Nat), BusCall.transmit a d ∈ (op.run s).2 →
      d.head? = some (op.run s).1.control_byte) ∧
    (transmits (op.run s).2 = [] → (op.run s).1.control_byte = s.control_byte) ∧
    (runAll Session.initial ops).1.control_byte
      = (lastCommandByte (runAll Session.initial ops).2).getD 0 := by
  refine ⟨fun a d hm => ?_, fun hno => ?_, runAll_control_byte ops Session.initial⟩
  · obtain ⟨rest, hd⟩ := Op.run_transmit_head s op a d hm
    rw [hd]
    rfl
  · rcases Op.run_transmits s op with ⟨_, _, hs⟩ | ⟨rest, h1, _⟩
    · exact hs
    · rw [h1] at hno
      exact absurd hno (List.cons_ne_nil _ _)

/-- C18: after every finite sequence of calls of the public surface from the initial
statics, with any arguments and any answers of the HAL, the control byte has bits 7,
3 and 2 clear, and so has the command byte of every transmit issued on the way. -/
theorem control_byte_reserved_bits_clear (ops : List Op) :
    (runAll Session.initial ops).1.control_byte &&& 0x8C = 0 ∧
    ∀ (a : Nat) (d : List Nat), BusCall.transmit a d ∈ (runAll Session.initial ops).2 →
      ∃ b rest, d = b :: rest ∧ b &&& 0x8C = 0 := by
  have h := runAll_reserved_bits ops Session.initial (by decide)
  refine ⟨h.1.2, fun a d hm => ?_⟩
  obtain ⟨b, rest, hd, hb⟩ := h.2 a d hm
  exact ⟨b, rest, hd, hb.2⟩


theorem control_byte_mirrors_command_byte_witness :
    (transmits (Op.run Session.initial (Op.read_ch_raw 7 HAL_OK (HAL_OK, [0, 0]))).2 = [] →
      (Op.run Session.initial (Op.read_ch_raw 7 HAL_OK (HAL_OK, [0, 0]))).1.control_byte
        = Session.initial.control_byte) ∧
    (runAll Session.initial
        [Op.init 1 0 (33 / 10) HAL_OK HAL_OK, Op.read_ch 2 HAL_OK (HAL_OK, [0, 255]),
         Op.read_ch_raw 7 HAL_OK (HAL_OK, [0, 0])]).1.control_byte
      = (lastCommandByte (runAll Session.initial
          [Op.init 1 0 (33 / 10) HAL_OK HAL_OK, Op.read_ch 2 HAL_OK (HAL_OK, [0, 255]),
           Op.read_ch_raw 7 HAL_OK (HAL_OK, [0, 0])]).2).getD 0 :=
  ⟨(control_byte_mirrors_command_byte Session.initial
      (Op.read_ch_raw 7 HAL_OK (HAL_OK, [0, 0])) []).2.1,
   (control_byte_mirrors_command_byte Session.initial
      (Op.read_ch_raw 7 HAL_OK (HAL_OK, [0, 0]))
      [Op.init 1 0 (33 / 10) HAL_OK HAL_OK, Op.read_ch 2 HAL_OK (HAL_OK, [0, 255]),
       Op.read_ch_raw 7 HAL_OK (HAL_OK, [0, 0])]).2.2⟩

/-- The sequence of the witness evaluated: `init(1, 0, 3.3)`, a read of channel 2 and a
rejected read of channel 7 transmit the command bytes `0x40` and `0x42` and leave the
control byte `0x42`. -/
theorem runAll_example :
    (runAll Session.initial
        [Op.init 1 0 (33 / 10) HAL_OK HAL_OK, Op.read_ch 2 HAL_OK (HAL_OK, [0, 255]),
         Op.read_ch_raw 7 HAL_OK (HAL_OK, [0, 0])]).1.control_byte = 0x42 ∧
    commandBytes (runAll Session.initial
        [Op.init 1 0 (33 / 10) HAL_OK HAL_OK, Op.read_ch 2 HAL_OK (HAL_OK, [0, 255]),
         Op.read_ch_raw 7 HAL_OK (HAL_OK, [0, 0])]).2 = [0x40, 0x42] := by
  constructor <;> rfl

theorem control_byte_reserved_bits_clear_witness :
    (runAll Session.initial
        [Op.init 0xFF 0xFF 5 HAL_OK HAL_ERROR, Op.write_raw 0xFF HAL_OK,
         Op.read_ch 3 HAL_OK (HAL_OK, [0, 255]),
         Op.read HAL_OK (HAL_BUSY, [])]).1.control_byte &&& 0x8C = 0 :=
  (control_byte_reserved_bits_clear
    [Op.init 0xFF 0xFF 5 HAL_OK HAL_ERROR, Op.write_raw 0xFF HAL_OK,
     Op.read_ch 3 HAL_OK (HAL_OK, [0, 255]), Op.read HAL_OK (HAL_BUSY, [])]).1


/-! ## Selecting a channel in a reachable state -/

/-- The witness evaluated: after `init(1, 2, 3.3)` and a read of channel 3 the control
byte is `0x63`, and a read of channel 1 makes it `0x61`. -/
theorem read_ch_reachable_example :
    (runAll Session.initial
      [Op.init 1 2 (33 / 10) HAL_OK HAL_OK, Op.read_ch 3 HAL_OK (HAL_OK, [0, 9])]).1.control_byte
      = 0x63 ∧
    (I2C_PCF8591_read_ch_raw
      (runAll Session.initial
        [Op.init 1 2 (33 / 10) HAL_OK HAL_OK, Op.read_ch 3 HAL_OK (HAL_OK, [0, 9])]).1
      1 HAL_OK (HAL_OK, [0, 7])).state.control_byte = 0x61 := by
  constructor <;> rfl

end PCF8591
